import Mathlib

/-!
Verification of the `artesanato_shop` client-side catalog logic.

Shallow embedding of the JavaScript modules that the specification
describes:

* `Utils.cache` from `src/js/main.js` (versioned, time-boxed local cache);
* the products module `src/js/app/products.js` (paginated fetch with a
  concurrency guard, category filtering, append-mode de-duplication,
  search);
* the zoom helper `src/js/helpers/zoom.js`;
* the admin bulk-delete flow `admin/js/categories.js`;
* the modal open precondition `src/js/app/modal.js`.

JavaScript strings are modelled as Lean `String`s; `String.prototype.includes`
and `toLowerCase` are re-implemented over the underlying character lists.
Time is modelled as natural-number epoch milliseconds; remote (Firestore)
calls are modelled by passing the remote outcome as an explicit argument.
-/

namespace ArtesanatoShop

/-! ### JavaScript string primitives -/

/-- `String.prototype.toLowerCase`, restricted to the per-character lowering
that the catalog data (ASCII) exercises. -/
def jsToLower (s : String) : String :=
  ⟨s.data.map Char.toLower⟩

/-- Does `l` start with `p`?  Helper for substring search. -/
def startsWithChars : List Char → List Char → Bool
  | _, [] => true
  | [], _ :: _ => false
  | c :: cs, d :: ds => c == d && startsWithChars cs ds

/-- Substring containment on character lists: `String.prototype.includes`. -/
def containsChars : List Char → List Char → Bool
  | l, sub =>
    if startsWithChars l sub then true
    else
      match l with
      | [] => false
      | _ :: cs => containsChars cs sub

/-- `haystack.includes(needle)` on Lean strings. -/
def jsIncludes (haystack needle : String) : Bool :=
  containsChars haystack.data needle.data

/-- Case-insensitive substring containment: the relation the specification
means by "contains the term as a case-insensitive substring". -/
def ciContains (haystack needle : String) : Bool :=
  jsIncludes (jsToLower haystack) (jsToLower needle)

/-! ### Local cache (`Utils.cache`, src/js/main.js lines 44–123) -/

/-- The parsed cache envelope `{data, version, timestamp}`. -/
structure CacheData (α : Type) where
  data : List α
  version : String
  timestamp : Nat
  deriving Repr, DecidableEq

/-- `localStorage` content under the fixed cache key: either empty or a
stored envelope. -/
abbrev CacheStore (α : Type) := Option (CacheData α)

/-- Constant `Utils.cache.CACHE_VERSION` at the verified revision. -/
def CACHE_VERSION : String := "1.2"

/-- Constant `Utils.cache.CACHE_DURATION` — 24 hours in milliseconds. -/
def CACHE_DURATION : Nat := 24 * 60 * 60 * 1000

/-- Function `Utils.cache.set(data)`: writes `{data, version: CACHE_VERSION,
timestamp: now}` under the key.  The JS try/catch around storage quota
errors is outside the model: this is the successful path, which is the one
the round-trip property of the specification quantifies over. -/
def cacheSet {α : Type} (data : List α) (now : Nat) : CacheStore α :=
  some { data := data, version := CACHE_VERSION, timestamp := now }

/-- Function `Utils.cache.get()`: returns the stored `data` array when the stored
version equals the current version constant of the code and the entry has not expired;
otherwise clears the entry and returns `null`.  The result is the returned
value paired with the storage state after the call.  `currentVersion`
abstracts the `CACHE_VERSION` constant of the code so that "bumping the version
constant" is expressible. -/
def cacheGet {α : Type} (currentVersion : String) (now : Nat)
    (store : CacheStore α) : Option (List α) × CacheStore α :=
  match store with
  | none => (none, none)
  | some cd =>
    if cd.version ≠ currentVersion then (none, none)
    else if now - cd.timestamp > CACHE_DURATION then (none, none)
    else (some cd.data, store)

/-- Function `Utils.cache.clear()`. -/
def cacheClear {α : Type} (_store : CacheStore α) : CacheStore α := none

/-- Function `Utils.cache.isValid()`: probes `get()`. -/
def cacheIsValid {α : Type} (currentVersion : String) (now : Nat)
    (store : CacheStore α) : Bool :=
  (cacheGet currentVersion now store).1.isSome

/-! ### Product data model (src/js/app/products.js) -/

/-- Product shape produced by the Firestore-document mapping at
src/js/app/products.js lines 89–101.  Firestore document identifiers are
strings, so `id : String`. -/
structure Product where
  id : String
  name : String
  category : String
  price : ℚ
  description : String
  link : String
  image : String
  images : List String
  deriving Repr, DecidableEq

/-- Raw field map of a Firestore product document (`doc.data()`); any field
may be absent. -/
structure DocData where
  name : Option String
  category : Option String
  price : Option ℚ
  description : Option String
  link : Option String
  image : Option String
  images : Option (List String)
  active : Bool
  deriving Repr, DecidableEq

/-- A Firestore document: stable identifier plus field map. -/
structure Doc where
  id : String
  data : DocData
  deriving Repr, DecidableEq

/-- JS `value || default` on an optional string field: `undefined` and the
empty string are both falsy. -/
def jsOrStr (v : Option String) (dflt : String) : String :=
  match v with
  | none => dflt
  | some s => if s = "" then dflt else s

/-- JS `value || 0` on an optional numeric field (`0` is falsy, so the
result is the same as defaulting absence to `0`). -/
def jsOrNum (v : Option ℚ) : ℚ := v.getD 0

/-- Document-to-product mapping of src/js/app/products.js lines 89–101.
Note `data.images || []` keeps an empty array (arrays are truthy in JS). -/
def mapDoc (d : Doc) : Product :=
  { id := d.id
    name := jsOrStr d.data.name "Sem nome"
    category := jsOrStr d.data.category "Outros"
    price := jsOrNum d.data.price
    description := jsOrStr d.data.description ""
    link := jsOrStr d.data.link ""
    image := jsOrStr d.data.image ""
    images := d.data.images.getD [] }

/-- Constant `PRODUCTS_PER_PAGE` (src/js/app/products.js line 10). -/
def PRODUCTS_PER_PAGE : Nat := 20

/-- Sort key for the `orderBy("name")` clause: the raw `name` field
(absent modelled as the empty string). -/
def docNameKey (d : Doc) : String := d.data.name.getD ""

/-- Insertion step of an insertion sort by `docNameKey`. -/
def insertByName (d : Doc) : List Doc → List Doc
  | [] => [d]
  | e :: es =>
    if docNameKey d ≤ docNameKey e then d :: e :: es
    else e :: insertByName d es

/-- Insertion sort by `docNameKey`. -/
def sortByName (l : List Doc) : List Doc := l.foldr insertByName []

/-- Behaviour of the external document store on the first page of the query
`collection("products").where("active", "==", true).orderBy("name")
.limit(PRODUCTS_PER_PAGE)` (src/js/app/products.js lines 59–62).  The store
itself is an out-of-scope collaborator; this models exactly the predicate,
order and limit the query requests. -/
def runQuery (coll : List Doc) : List Doc :=
  (sortByName (coll.filter (fun d => d.data.active))).take PRODUCTS_PER_PAGE

/-! ### Pagination state and the fetch concurrency guard -/

/-- Module-level pagination state of src/js/app/products.js lines 11–13
together with `state.products`, plus `fetchCount`, an observational counter
of remote `query.get()` calls (the "mock fetch called once" instrument of
the specification; it is not a source variable and no source branch reads
it). -/
structure ProductsState where
  products : List Product
  lastVisibleDoc : Option String
  hasMoreProducts : Bool
  isLoadingMore : Bool
  fetchCount : Nat
  deriving Repr, DecidableEq

/-- Synchronous prefix of `fetchProducts(dom, state, loadMore)` up to its
suspension point `await query.get()`: the `isLoadingMore` guard, the
`hasMoreProducts` guard, setting `isLoadingMore`, the first-page cursor
reset, and issuing the remote query.  Returns the state at the suspension
point and whether a remote query was issued (`false` means the call
returned early without fetching). -/
def fetchStart (loadMore : Bool) (s : ProductsState) : ProductsState × Bool :=
  if s.isLoadingMore then (s, false)
  else if loadMore && !s.hasMoreProducts then (s, false)
  else
    ({ s with
        isLoadingMore := true
        lastVisibleDoc := if loadMore then s.lastVisibleDoc else none
        hasMoreProducts := if loadMore then s.hasMoreProducts else true
        fetchCount := s.fetchCount + 1 }, true)

/-- Continuation of `fetchProducts` after `await query.get()` resolves or
rejects (src/js/app/products.js lines 74–135): updates `hasMoreProducts`
and `lastVisibleDoc`, maps documents, appends or replaces `state.products`,
and — in the `finally` block, on both the return and the rethrow path —
resets `isLoadingMore`.  `outcome` is the remote reply: `Except.ok` a
snapshot (document list) or `Except.error` a rejection. -/
def fetchFinish (loadMore : Bool) (outcome : Except Unit (List Doc))
    (s : ProductsState) : ProductsState × Except Unit (List Product) :=
  match outcome with
  | .error e => ({ s with isLoadingMore := false }, .error e)
  | .ok docs =>
    let hasMore := docs.length == PRODUCTS_PER_PAGE
    let lastVis := match docs.getLast? with
      | some d => some d.id
      | none => s.lastVisibleDoc
    let newProducts := docs.map mapDoc
    let products := if loadMore then s.products ++ newProducts else newProducts
    ({ s with
        products := products
        hasMoreProducts := hasMore
        lastVisibleDoc := lastVis
        isLoadingMore := false }, .ok products)

/-- Whole `fetchProducts` call: the synchronous prefix followed, when a
query was issued, by the continuation on the remote outcome.  An
early-returned call yields `state.products` unchanged. -/
def fetchProducts (loadMore : Bool) (outcome : Except Unit (List Doc))
    (s : ProductsState) : ProductsState × Except Unit (List Product) :=
  match fetchStart loadMore s with
  | (s₁, true) => fetchFinish loadMore outcome s₁
  | (s₁, false) => (s₁, .ok s₁.products)

/-- Synchronous prefix of `loadMoreProducts` (src/js/app/products.js lines
151–159) up to the suspension point inside `fetchProducts`: the
`!hasMoreProducts || isLoadingMore` guard, then the fetch prefix.  Returns
the state at the suspension point and whether a remote query was issued. -/
def loadMoreTrigger (s : ProductsState) : ProductsState × Bool :=
  if !s.hasMoreProducts || s.isLoadingMore then (s, false)
  else fetchStart true s

/-! ### Category filtering and rendering (src/js/app/products.js lines 196–314)

The product container is modelled as the list of product cards it holds,
each card identified by the product it was created from (a rendered card
carries `dataset.id = String(product.id)` on its details button, which is
how append-mode de-duplication reads identifiers back). -/

/-- The `filter` argument of `loadProducts` / `renderProducts`: a JS string
(a single slug, or the special value "all") or a JS array of slugs. -/
inductive CategoryFilter where
  | str (s : String)
  | arr (l : List String)
  deriving Repr, DecidableEq

/-- Category filtering step of `renderProducts` (lines 266–274): an array
filter keeps products whose category is a member; a non-"all" string keeps
products with that exact category; "all" keeps everything. -/
def applyCategoryFilter (filter : CategoryFilter) (products : List Product) :
    List Product :=
  match filter with
  | .arr l => products.filter (fun p => l.contains p.category)
  | .str s => if s = "all" then products else products.filter (fun p => p.category == s)

/-- Function `renderProducts(dom, products, filter, append)` (lines 249–314)
as a container transformer.  Non-append mode clears the container and
renders the category-filtered list.  Append mode collects the
`dataset.id` values of the cards already in the container, drops incoming
products whose id is already present, and appends cards for the rest. -/
def renderProducts (container : List Product) (products : List Product)
    (filter : CategoryFilter) (append : Bool) : List Product :=
  let filteredProducts := applyCategoryFilter filter products
  if append then
    let existingIds := container.map (fun card => card.id)
    container ++ filteredProducts.filter (fun p => !existingIds.contains p.id)
  else
    filteredProducts

/-- Function `loadProducts(dom, products, filter, append)` (lines 203–240):
append mode renders directly; non-append mode renders after the fade-out
transition when cards are present, directly otherwise — in both timing
branches the resulting container is `renderProducts` in non-append mode. -/
def loadProducts (container : List Product) (products : List Product)
    (filter : CategoryFilter) (append : Bool) : List Product :=
  if append then renderProducts container products filter true
  else renderProducts container products filter false

/-! ### Category buttons and search (src/js/app/products.js lines 166–396) -/

/-- A category filter button: its `dataset.category` slug and whether its
class list contains "active". -/
structure CatButton where
  category : String
  active : Bool
  deriving Repr, DecidableEq

/-- DOM references the products module reads: `dom.products.categories`
(`none` models an absent NodeList). -/
structure Dom where
  categories : Option (List CatButton)
  deriving Repr, DecidableEq

/-- Function `getCurrentFilter(dom)` (lines 171–179): the active non-"all"
category slugs as an array filter, or "all" when none are selected. -/
def getCurrentFilter (dom : Dom) : CategoryFilter :=
  match dom.categories with
  | none => .str "all"
  | some buttons =>
    let selected := (buttons.filter
        (fun c => c.active && c.category != "all")).map (fun c => c.category)
    if selected.length > 0 then .arr selected else .str "all"

/-- Function `renderFilteredProducts(dom, products)` (lines 353–396), as the
list of cards it leaves in the container: it clears the container, applies
the active category selection on top of the given list, and renders the
result (an empty result renders a "no results" message and no cards). -/
def renderFilteredProducts (dom : Dom) (products : List Product) :
    List Product :=
  let selected : List String := match dom.categories with
    | none => []
    | some buttons => (buttons.filter
        (fun c => c.active && c.category != "all")).map (fun c => c.category)
  if selected.length > 0 then
    products.filter (fun p => selected.contains p.category)
  else
    products

/-- Function `filterProductsBySearch(dom, products, searchTerm)` (lines
322–346), as the list of cards it leaves in the container.  An empty term
reapplies the active category filter through `loadProducts`; a non-empty
term keeps the products whose lowercased name or lowercased description
contains the term (the term itself is not lowercased here), then renders
through `renderFilteredProducts`. -/
def filterProductsBySearch (dom : Dom) (products : List Product)
    (searchTerm : String) : List Product :=
  if searchTerm = "" then
    let selected : List String := match dom.categories with
      | none => []
      | some buttons => (buttons.filter
          (fun c => c.active && c.category != "all")).map (fun c => c.category)
    let filterParam : CategoryFilter :=
      if selected.length > 0 then .arr selected else .str "all"
    loadProducts [] products filterParam false
  else
    let filteredProducts := products.filter (fun p =>
      jsIncludes (jsToLower p.name) searchTerm ||
      jsIncludes (jsToLower p.description) searchTerm)
    renderFilteredProducts dom filteredProducts

/-- The currently active non-"all" category slugs (the `selected`
computation shared by `getCurrentFilter`, `renderFilteredProducts` and the
empty-term branch of `filterProductsBySearch`). -/
def domSelected (dom : Dom) : List String :=
  match dom.categories with
  | none => []
  | some buttons => (buttons.filter
      (fun c => c.active && c.category != "all")).map (fun c => c.category)

/-! ### The fetch-and-render pagination pipeline

Composition used for the de-duplication invariant: the initial page load
(`fetchProducts` then `loadProducts(dom, state.products, filter)`, non-append)
followed by any number of `loadMoreProducts` steps (`fetchProducts(dom,
state, true)` appending to `state.products`, then `loadProducts(dom,
state.products, filter, true)` rendering the accumulated array in append
mode).  An accumulator is the pair (`state.products`, container). -/

/-- Initial fetch and non-append render of a resolved first page. -/
def fetchRenderInit (filter : CategoryFilter) (page : List Doc) :
    List Product × List Product :=
  let products := page.map mapDoc
  (products, loadProducts [] products filter false)

/-- One `loadMoreProducts` step on a resolved next page: append the mapped
page to `state.products`, then render the accumulated array in append
mode against the current container. -/
def fetchRenderMore (filter : CategoryFilter)
    (acc : List Product × List Product) (page : List Doc) :
    List Product × List Product :=
  let products := acc.1 ++ page.map mapDoc
  (products, loadProducts acc.2 products filter true)

/-! ### Zoom helper (src/js/helpers/zoom.js) -/

/-- The bounding client rect of the zoom container. -/
structure DomRect where
  left : ℚ
  top : ℚ
  width : ℚ
  height : ℚ
  deriving Repr, DecidableEq

/-- Function `calculateZoomPosition(e, containerRect, scale)` (zoom.js lines
48–71): mouse client coordinates are taken relative to the container,
normalised, turned into a translate proportional to the offset from
center, and clamped to `±maxMove` per axis. -/
def calculateZoomPosition (clientX clientY : ℚ) (containerRect : DomRect)
    (scale : ℚ) : ℚ × ℚ :=
  let x := clientX - containerRect.left
  let y := clientY - containerRect.top
  let relativeX := x / containerRect.width
  let relativeY := y / containerRect.height
  let maxMoveX := (containerRect.width * (scale - 1)) / 2
  let maxMoveY := (containerRect.height * (scale - 1)) / 2
  let translateX := (1/2 - relativeX) * maxMoveX * 2
  let translateY := (1/2 - relativeY) * maxMoveY * 2
  let clampedX := max (-maxMoveX) (min maxMoveX translateX)
  let clampedY := max (-maxMoveY) (min maxMoveY translateY)
  (clampedX, clampedY)

/-- Function `calculateTouchZoomPosition(centerX, centerY, containerRect,
scale)` (zoom.js lines 81–103): identical computation from the touch
gesture center. -/
def calculateTouchZoomPosition (centerX centerY : ℚ) (containerRect : DomRect)
    (scale : ℚ) : ℚ × ℚ :=
  let x := centerX - containerRect.left
  let y := centerY - containerRect.top
  let relativeX := x / containerRect.width
  let relativeY := y / containerRect.height
  let maxMoveX := (containerRect.width * (scale - 1)) / 2
  let maxMoveY := (containerRect.height * (scale - 1)) / 2
  let translateX := (1/2 - relativeX) * maxMoveX * 2
  let translateY := (1/2 - relativeY) * maxMoveY * 2
  let clampedX := max (-maxMoveX) (min maxMoveX translateX)
  let clampedY := max (-maxMoveY) (min maxMoveY translateY)
  (clampedX, clampedY)

/-- Horizontal position of the left edge of the scaled image: the image
fills the container, is scaled about its center by `s` and translated by
`t`. -/
def zoomedLeftEdge (r : DomRect) (t s : ℚ) : ℚ :=
  r.left + r.width / 2 + t - s * r.width / 2

/-- Horizontal position of the right edge of the scaled image. -/
def zoomedRightEdge (r : DomRect) (t s : ℚ) : ℚ :=
  r.left + r.width / 2 + t + s * r.width / 2

/-- Vertical position of the top edge of the scaled image. -/
def zoomedTopEdge (r : DomRect) (t s : ℚ) : ℚ :=
  r.top + r.height / 2 + t - s * r.height / 2

/-- Vertical position of the bottom edge of the scaled image. -/
def zoomedBottomEdge (r : DomRect) (t s : ℚ) : ℚ :=
  r.top + r.height / 2 + t + s * r.height / 2

/-! ### Admin bulk delete (admin/js/categories.js lines 455–527, 670–685) -/

/-- Admin bulk-action state: the selection (a JS `Set` of product document
ids, read out in insertion order by `Array.from`, hence duplicate-free) and
the log of committed delete batches (each entry the list of ids a single
`batch.commit()` deleted). -/
structure AdminState where
  selected : List String
  committedBatches : List (List String)
  deriving Repr, DecidableEq

/-- Function `bulkDeleteProducts(productIds)` (lines 502–527): asks for
confirmation; when confirmed, builds one batch containing a delete for each
id in `productIds`, commits it, then clears the selection
(`clearSelection`, lines 670–685). -/
def bulkDeleteProducts (confirmed : Bool) (productIds : List String)
    (s : AdminState) : AdminState :=
  if !confirmed then s
  else
    { selected := []
      committedBatches := s.committedBatches ++ [productIds] }

/-- The "delete" arm of `handleBulkAction` (lines 460–478): reads
`Array.from(selectedProducts)`, returns early when empty, then runs
`bulkDeleteProducts`. -/
def handleBulkDelete (confirmed : Bool) (s : AdminState) : AdminState :=
  let productIds := s.selected
  if productIds.isEmpty then s
  else bulkDeleteProducts confirmed productIds s

/-! ### Modal open (src/js/app/modal.js lines 18–115) -/

/-- Modal and page state that `openModal` touches: the saved focus, the
scroll lock, the container classes, and the populated content fields.  The
price text is modelled by the rational it formats. -/
structure ModalState where
  previouslyFocusedElement : Option String
  scrollLockY : Option Nat
  bodyTop : Option Int
  bodyNoScroll : Bool
  containerOpen : Bool
  containerActive : Bool
  containerClosing : Bool
  title : String
  price : ℚ
  description : String
  mainImage : String
  deriving Repr, DecidableEq

/-- Function `openModal(dom, products, productId, state)` (modal.js lines
18–115): looks the product up by id and returns without any side effect
when it is absent; otherwise saves focus (`activeElement` is
`document.activeElement` at call time) and scroll position (`scrollY` is
`window.scrollY`), locks scrolling, opens and activates the container, and
populates title, price, description and the primary gallery image. -/
def openModal (products : List Product) (productId : String)
    (activeElement : String) (scrollY : Nat) (st : ModalState) : ModalState :=
  match products.find? (fun p => p.id == productId) with
  | none => st
  | some product =>
    let imgs := if product.images.length ≠ 0 then product.images
                else [product.image]
    { previouslyFocusedElement := some activeElement
      scrollLockY := some scrollY
      bodyTop := some (-(scrollY : Int))
      bodyNoScroll := true
      containerOpen := true
      containerActive := true
      containerClosing := false
      title := product.name
      price := product.price
      description := product.description
      mainImage := imgs.headD "" }

/-! ### Concrete scenario data

The two-product example of the specification (§8, end-to-end scenarios):
`{id:1, name:"Vase", category:"decor", price:19.9, active:true}` and
`{id:2, name:"Mug", category:"kitchen", price:9.5, active:false}`, as
Firestore documents and as mapped products. -/

/-- The active "Vase" document of scenario A/B. -/
def vaseDoc : Doc :=
  { id := "1"
    data := { name := some "Vase", category := some "decor",
              price := some (mkRat 199 10), description := none, link := none,
              image := none, images := none, active := true } }

/-- The inactive "Mug" document of scenario A/B. -/
def mugDoc : Doc :=
  { id := "2"
    data := { name := some "Mug", category := some "kitchen",
              price := some (mkRat 95 10), description := none, link := none,
              image := none, images := none, active := false } }

/-- Image of `vaseDoc` under the document-to-product mapping. -/
def vaseProduct : Product :=
  { id := "1", name := "Vase", category := "decor", price := mkRat 199 10,
    description := "", link := "", image := "", images := [] }

/-- Image of `mugDoc` under the document-to-product mapping. -/
def mugProduct : Product :=
  { id := "2", name := "Mug", category := "kitchen", price := mkRat 95 10,
    description := "", link := "", image := "", images := [] }

/-! ### C1 — cache round-trip and invalidation -/

/-- C1.  Cache round-trip and invalidation: after a successful `set(X)`, a
`get()` issued while the stored version equals the current code version and
whose age satisfies `now - timestamp < CACHE_DURATION` returns exactly `X`
(and keeps the entry); if the stored version differs from the current
version, or the age exceeds the duration window, `get()` deletes the stored
entry entirely and returns null. -/
theorem cache_roundtrip_and_invalidation (X : List Product) (t0 now : Nat)
    (currentVersion : String) :
    (currentVersion = CACHE_VERSION → now - t0 < CACHE_DURATION →
      cacheGet currentVersion now (cacheSet X t0) = (some X, cacheSet X t0)) ∧
    (∀ cd : CacheData Product,
      cd.version ≠ currentVersion ∨ now - cd.timestamp > CACHE_DURATION →
      cacheGet currentVersion now (some cd) = (none, none)) := by
  constructor
  · intro hv hage
    subst hv
    have hne : ¬ (CACHE_VERSION ≠ CACHE_VERSION) := by simp
    have hfresh : ¬ (now - t0 > CACHE_DURATION) := by omega
    simp [cacheGet, cacheSet, hfresh]
  · intro cd hbad
    by_cases hv : cd.version = currentVersion
    · rcases hbad with hfail | hexp
      · exact absurd hv hfail
      · simp [cacheGet, hv, hexp]
    · simp [cacheGet, hv]

/-- C1 witness: a concrete round trip within the window, and a concrete
version-mismatched entry which is deleted. -/
theorem cache_roundtrip_and_invalidation_witness :
    cacheGet CACHE_VERSION 1000 (cacheSet [vaseProduct] 500)
      = (some [vaseProduct], cacheSet [vaseProduct] 500) ∧
    cacheGet CACHE_VERSION 1000
      (some { data := [mugProduct], version := "1.1", timestamp := 999 })
      = (none, none) :=
  ⟨(cache_roundtrip_and_invalidation [vaseProduct] 500 1000 CACHE_VERSION).1
      rfl (by decide),
   (cache_roundtrip_and_invalidation [mugProduct] 0 1000 CACHE_VERSION).2
      { data := [mugProduct], version := "1.1", timestamp := 999 }
      (Or.inl (by decide))⟩

/-! ### C2 — pagination concurrency guard -/

/-- C2.  Concurrency guard on pagination: a "load more" trigger issued
while a fetch is in flight (`isLoadingMore` set) performs no remote query
and leaves the whole pagination state, in particular the product array,
unchanged — and the same holds for a direct `fetchProducts` call.  Two
triggers in immediate succession from an idle state with more pages
available issue exactly one remote query: the first increments the fetch
count by one and marks the fetch in flight, the second is a silent
no-op. -/
theorem pagination_single_inflight_fetch (s sActive : ProductsState)
    (hin : sActive.isLoadingMore = true)
    (h₀ : s.isLoadingMore = false) (hmore : s.hasMoreProducts = true) :
    loadMoreTrigger sActive = (sActive, false) ∧
    (∀ (loadMore : Bool) (outcome : Except Unit (List Doc)),
      fetchProducts loadMore outcome sActive = (sActive, .ok sActive.products)) ∧
    ((loadMoreTrigger s).2 = true ∧
     (loadMoreTrigger s).1.fetchCount = s.fetchCount + 1 ∧
     (loadMoreTrigger s).1.products = s.products ∧
     loadMoreTrigger (loadMoreTrigger s).1 = ((loadMoreTrigger s).1, false)) := by
  refine ⟨?_, ?_, ?_⟩
  · simp [loadMoreTrigger, hin]
  · intro loadMore outcome
    simp [fetchProducts, fetchStart, hin]
  · simp [loadMoreTrigger, fetchStart, h₀, hmore]

/-- C2 witness: a concrete in-flight state (trigger is a no-op) and a
concrete idle state (double trigger fetches once). -/
theorem pagination_single_inflight_fetch_witness :
    loadMoreTrigger
        { products := [vaseProduct], lastVisibleDoc := some "1",
          hasMoreProducts := true, isLoadingMore := true, fetchCount := 1 }
      = ({ products := [vaseProduct], lastVisibleDoc := some "1",
           hasMoreProducts := true, isLoadingMore := true, fetchCount := 1 }, false) ∧
    (loadMoreTrigger
        { products := [vaseProduct], lastVisibleDoc := some "1",
          hasMoreProducts := true, isLoadingMore := false, fetchCount := 1 }).1.fetchCount
      = 2 :=
  ⟨(pagination_single_inflight_fetch
      { products := [vaseProduct], lastVisibleDoc := some "1",
        hasMoreProducts := true, isLoadingMore := false, fetchCount := 1 }
      { products := [vaseProduct], lastVisibleDoc := some "1",
        hasMoreProducts := true, isLoadingMore := true, fetchCount := 1 }
      rfl rfl rfl).1,
   (pagination_single_inflight_fetch
      { products := [vaseProduct], lastVisibleDoc := some "1",
        hasMoreProducts := true, isLoadingMore := false, fetchCount := 1 }
      { products := [vaseProduct], lastVisibleDoc := some "1",
        hasMoreProducts := true, isLoadingMore := true, fetchCount := 1 }
      rfl rfl rfl).2.2.2.1⟩

/-! ### C10 — the guard is reset on every completed fetch -/

/-- C10.  Every `fetchProducts` call that enters the fetch path (the guard
is clear at entry), whether the remote query resolves or rejects, leaves
`isLoadingMore` false on completion — the `finally` block resets it on the
return path and on the rethrow path alike, so a failed fetch never blocks
subsequent `fetchProducts` or `loadMoreProducts` calls. -/
theorem fetch_guard_reset_on_completion (loadMore : Bool)
    (outcome : Except Unit (List Doc)) (s : ProductsState)
    (h : s.isLoadingMore = false) :
    ((fetchProducts loadMore outcome s).1).isLoadingMore = false := by
  by_cases hg : loadMore = true ∧ s.hasMoreProducts = false
  · simp [fetchProducts, fetchStart, h, hg]
  · cases outcome <;> simp [fetchProducts, fetchStart, fetchFinish, h, hg]

/-- C10 witness: a rejected remote query from an idle state leaves the
guard clear. -/
theorem fetch_guard_reset_on_completion_witness :
    ((fetchProducts true (.error ())
        { products := [], lastVisibleDoc := none, hasMoreProducts := true,
          isLoadingMore := false, fetchCount := 0 }).1).isLoadingMore = false :=
  fetch_guard_reset_on_completion true (.error ())
    { products := [], lastVisibleDoc := none, hasMoreProducts := true,
      isLoadingMore := false, fetchCount := 0 } rfl

/-! ### C4 — category filter semantics -/

/-- C4.  Category filter semantics: "all" keeps every product; a single
slug (other than the reserved value "all") keeps exactly the products whose
category equals that slug; an array of slugs keeps exactly the products
whose category is a member of the array.  For the two-product example with
the active fetch predicate applied, filtering by "decor" yields `[Vase]`
and filtering by "all" yields `[Vase]`. -/
theorem category_filter_semantics :
    (∀ products : List Product,
      applyCategoryFilter (.str "all") products = products) ∧
    (∀ (products : List Product) (slug : String), slug ≠ "all" →
      ∀ p, p ∈ applyCategoryFilter (.str slug) products ↔
        p ∈ products ∧ p.category = slug) ∧
    (∀ (products : List Product) (slugs : List String),
      ∀ p, p ∈ applyCategoryFilter (.arr slugs) products ↔
        p ∈ products ∧ p.category ∈ slugs) ∧
    applyCategoryFilter (.str "decor") ((runQuery [vaseDoc, mugDoc]).map mapDoc)
      = [vaseProduct] ∧
    applyCategoryFilter (.str "all") ((runQuery [vaseDoc, mugDoc]).map mapDoc)
      = [vaseProduct] := by
  refine ⟨?_, ?_, ?_, by decide, by decide⟩
  · intro products
    simp [applyCategoryFilter]
  · intro products slug hslug p
    simp [applyCategoryFilter, hslug, List.mem_filter]
  · intro products slugs p
    simp [applyCategoryFilter, List.mem_filter, List.elem_iff]

/-- C4 witness: concrete instances of each filter mode on the two-product
example. -/
theorem category_filter_semantics_witness :
    applyCategoryFilter (.str "all") [vaseProduct, mugProduct]
      = [vaseProduct, mugProduct] ∧
    (vaseProduct ∈ applyCategoryFilter (.str "decor") [vaseProduct, mugProduct] ∧
      vaseProduct.category = "decor") ∧
    (mugProduct ∈ applyCategoryFilter (.arr ["decor", "kitchen"])
        [vaseProduct, mugProduct] ∧
      mugProduct.category ∈ ["decor", "kitchen"]) :=
  ⟨category_filter_semantics.1 [vaseProduct, mugProduct],
   ⟨(category_filter_semantics.2.1 [vaseProduct, mugProduct] "decor"
        (by decide) vaseProduct).mpr ⟨by simp, by decide⟩, by decide⟩,
   ⟨(category_filter_semantics.2.2.1 [vaseProduct, mugProduct]
        ["decor", "kitchen"] mugProduct).mpr ⟨by simp, by decide⟩, by decide⟩⟩

/-! ### C6 — empty search term restores the active category filter -/

/-- C6.  Search/category composition on the empty term: for every product
list and every state of the category buttons, `filterProductsBySearch`
with the empty term leaves in the container exactly the set that
`loadProducts` with the currently active category filter (the multi-select
array when categories are active, "all" otherwise, as computed by
`getCurrentFilter`) would produce. -/
theorem search_empty_term_restores_category_filter (dom : Dom)
    (products : List Product) :
    filterProductsBySearch dom products "" =
      loadProducts [] products (getCurrentFilter dom) false := by
  cases h : dom.categories <;>
    simp [filterProductsBySearch, loadProducts, renderProducts,
      getCurrentFilter, h]

/-! ### C8 — bulk delete commits one exact batch and clears the selection -/

/-- C8.  Bulk delete: for every non-empty confirmed selection (a JS `Set`
read out by `Array.from`, hence duplicate-free), `handleBulkAction` with
the "delete" action issues exactly one batched delete commit whose deletes
are exactly the selected identifiers — each once, no others — and then
clears the selection; in particular bulk-deleting the selection
`["1","2"]` batches exactly those two ids. -/
theorem bulk_delete_one_exact_batch_clears_selection (s : AdminState)
    (hne : s.selected ≠ []) (hnd : s.selected.Nodup) :
    (handleBulkDelete true s).committedBatches
        = s.committedBatches ++ [s.selected] ∧
    s.selected.Nodup ∧
    (handleBulkDelete true s).selected = [] ∧
    handleBulkDelete true { selected := ["1", "2"], committedBatches := [] }
      = { selected := [], committedBatches := [["1", "2"]] } := by
  have hns : ¬ s.selected.isEmpty := by
    cases h : s.selected with
    | nil => exact absurd h hne
    | cons a l => simp [h]
  refine ⟨?_, hnd, ?_, by decide⟩ <;>
    simp [handleBulkDelete, bulkDeleteProducts, hns]

/-- C8 witness: the concrete selection `["1","2"]`. -/
theorem bulk_delete_one_exact_batch_clears_selection_witness :
    (handleBulkDelete true
        { selected := ["1", "2"], committedBatches := [] }).committedBatches
      = [] ++ [["1", "2"]] ∧
    (handleBulkDelete true
        { selected := ["1", "2"], committedBatches := [] }).selected = [] :=
  ⟨(bulk_delete_one_exact_batch_clears_selection
      { selected := ["1", "2"], committedBatches := [] }
      (by decide) (by decide)).1,
   (bulk_delete_one_exact_batch_clears_selection
      { selected := ["1", "2"], committedBatches := [] }
      (by decide) (by decide)).2.2.1⟩

/-! ### C9 — opening the modal for an unknown id is a no-op -/

/-- C9.  Modal open precondition: if no product in the in-memory list has
the requested id, `openModal` returns without performing any side effect —
the saved focus, the scroll lock, the container classes and every content
field are left exactly as they were. -/
theorem openModal_unknown_id_noop (products : List Product)
    (productId activeElement : String) (scrollY : Nat) (st : ModalState)
    (habsent : ∀ p ∈ products, p.id ≠ productId) :
    openModal products productId activeElement scrollY st = st := by
  have hfind : products.find? (fun p => p.id == productId) = none := by
    rw [List.find?_eq_none]
    intro p hp
    simpa using habsent p hp
  simp [openModal, hfind]

/-- C9 witness: opening id "999", which the one-product list does not
contain, leaves a concrete modal state unchanged. -/
theorem openModal_unknown_id_noop_witness :
    openModal [vaseProduct] "999" "btn-details" 120
        { previouslyFocusedElement := none, scrollLockY := none,
          bodyTop := none, bodyNoScroll := false, containerOpen := false,
          containerActive := false, containerClosing := false, title := "",
          price := 0, description := "", mainImage := "" }
      = { previouslyFocusedElement := none, scrollLockY := none,
          bodyTop := none, bodyNoScroll := false, containerOpen := false,
          containerActive := false, containerClosing := false, title := "",
          price := 0, description := "", mainImage := "" } :=
  openModal_unknown_id_noop [vaseProduct] "999" "btn-details" 120 _
    (by decide)

/-! ### C5 — search match semantics -/

/-- C5 counterexample: `filterProductsBySearch` is not case-insensitive in
the search term.  For the term "MU" (non-empty, no category selection
active) it selects nothing from `[Mug]`, although "Mug" contains "MU" as a
case-insensitive substring — the code lowercases the product fields but
not the term, so the claimed selection `[Mug]` is not what is rendered. -/
theorem search_not_case_insensitive_in_term :
    filterProductsBySearch { categories := none } [mugProduct] "MU" = [] ∧
    (ciContains mugProduct.name "MU" || ciContains mugProduct.description "MU")
      = true ∧
    "MU" ≠ "" := by
  refine ⟨by decide, by decide, by decide⟩

/-- C5 amended.  For every product list, every state of the category
buttons and every non-empty lowercase search term (the event wiring
lowercases user input before invoking the function), `filterProductsBySearch`
leaves in the container exactly the products whose name or description
contains the term as a case-insensitive substring — with the active
multi-select category filter, when one is present, composed on top.  In
particular, searching "mu" over the two-product example with no category
selection returns `[Mug]`. -/
theorem search_match_semantics_amended (dom : Dom) (products : List Product)
    (term : String) (hne : term ≠ "") (hlow : jsToLower term = term) :
    (∀ p, p ∈ filterProductsBySearch dom products term ↔
      p ∈ products ∧
      (ciContains p.name term || ciContains p.description term) = true ∧
      (domSelected dom = [] ∨ p.category ∈ domSelected dom)) ∧
    filterProductsBySearch { categories := none } [vaseProduct, mugProduct] "mu"
      = [mugProduct] := by
  refine ⟨?_, by decide⟩
  intro p
  have hci : ∀ s : String, ciContains s term = jsIncludes (jsToLower s) term := by
    intro s
    unfold ciContains
    rw [hlow]
  cases hdc : dom.categories with
  | none =>
    simp [filterProductsBySearch, renderFilteredProducts, domSelected, hne,
      hdc, List.mem_filter, hci]
  | some buttons =>
    by_cases hsel : ((buttons.filter
        (fun c => c.active && c.category != "all")).map
          (fun c => c.category)).length > 0
    · have hsel' : (buttons.filter
          (fun c => c.active && c.category != "all")).map
            (fun c => c.category) ≠ [] := by
        intro hnil
        rw [hnil] at hsel
        simp at hsel
      have hlen : 0 < (buttons.filter
          (fun c => c.active && c.category != "all")).length := by
        simpa using hsel
      simp [filterProductsBySearch, renderFilteredProducts, domSelected, hne,
        hdc, hsel, hsel', hlen, List.mem_filter, hci, List.elem_iff]
      tauto
    · have hsel' : (buttons.filter
          (fun c => c.active && c.category != "all")).map
            (fun c => c.category) = [] := by
        rcases List.eq_nil_or_concat ((buttons.filter
            (fun c => c.active && c.category != "all")).map
              (fun c => c.category)) with h | ⟨l, a, h⟩
        · exact h
        · rw [h] at hsel
          simp at hsel
      simp [filterProductsBySearch, renderFilteredProducts, domSelected, hne,
        hdc, hsel, hsel', List.mem_filter, hci]

/-- C5 amended witness: searching "mu" keeps exactly `Mug` from the
two-product list. -/
theorem search_match_semantics_amended_witness :
    mugProduct ∈ filterProductsBySearch { categories := none }
      [vaseProduct, mugProduct] "mu" :=
  ((search_match_semantics_amended { categories := none }
      [vaseProduct, mugProduct] "mu" (by decide) (by decide)).1 mugProduct).mpr
    ⟨by simp, by decide, Or.inl (by decide)⟩

/-! ### C7 — zoom translate clamp -/

/-- C7.  Zoom translate clamp: for every pointer position inside the
container bounds, positive container dimensions, and scale above 1, the
translate computed by `calculateZoomPosition` and by
`calculateTouchZoomPosition` lies within `±dim·(scale−1)/2` on each axis;
and a translate lies in that range exactly when the scaled image's edges do
not retreat past the container's edges (the container stays covered). -/
theorem zoom_translate_clamp (clientX clientY : ℚ) (r : DomRect) (scale : ℚ)
    (hw : 0 < r.width) (hh : 0 < r.height) (hs : 1 < scale)
    (hx₁ : r.left ≤ clientX) (hx₂ : clientX ≤ r.left + r.width)
    (hy₁ : r.top ≤ clientY) (hy₂ : clientY ≤ r.top + r.height) :
    (-(r.width * (scale - 1) / 2) ≤ (calculateZoomPosition clientX clientY r scale).1 ∧
      (calculateZoomPosition clientX clientY r scale).1 ≤ r.width * (scale - 1) / 2) ∧
    (-(r.height * (scale - 1) / 2) ≤ (calculateZoomPosition clientX clientY r scale).2 ∧
      (calculateZoomPosition clientX clientY r scale).2 ≤ r.height * (scale - 1) / 2) ∧
    calculateTouchZoomPosition clientX clientY r scale
      = calculateZoomPosition clientX clientY r scale ∧
    (∀ t : ℚ,
      (-(r.width * (scale - 1) / 2) ≤ t ∧ t ≤ r.width * (scale - 1) / 2) ↔
      (zoomedLeftEdge r t scale ≤ r.left ∧
        r.left + r.width ≤ zoomedRightEdge r t scale)) ∧
    (∀ t : ℚ,
      (-(r.height * (scale - 1) / 2) ≤ t ∧ t ≤ r.height * (scale - 1) / 2) ↔
      (zoomedTopEdge r t scale ≤ r.top ∧
        r.top + r.height ≤ zoomedBottomEdge r t scale)) := by
  have hmx : 0 ≤ r.width * (scale - 1) / 2 := by
    have h1 : 0 ≤ scale - 1 := by linarith
    positivity
  have hmy : 0 ≤ r.height * (scale - 1) / 2 := by
    have h1 : 0 ≤ scale - 1 := by linarith
    positivity
  refine ⟨⟨?_, ?_⟩, ⟨?_, ?_⟩, ?_, ?_, ?_⟩
  · exact le_max_left _ _
  · exact max_le (by linarith) (min_le_left _ _)
  · exact le_max_left _ _
  · exact max_le (by linarith) (min_le_left _ _)
  · rfl
  · intro t
    unfold zoomedLeftEdge zoomedRightEdge
    constructor
    · rintro ⟨h1, h2⟩
      constructor <;> nlinarith
    · rintro ⟨h1, h2⟩
      constructor <;> nlinarith
  · intro t
    unfold zoomedTopEdge zoomedBottomEdge
    constructor
    · rintro ⟨h1, h2⟩
      constructor <;> nlinarith
    · rintro ⟨h1, h2⟩
      constructor <;> nlinarith

/-- C7 witness: a concrete pointer position in a 100×80 container at scale
2 stays within the clamp range. -/
theorem zoom_translate_clamp_witness :
    -(((100 : ℚ)) * ((2 : ℚ) - 1) / 2)
        ≤ (calculateZoomPosition 25 60 ⟨0, 0, 100, 80⟩ 2).1 ∧
    (calculateZoomPosition 25 60 ⟨0, 0, 100, 80⟩ 2).1
        ≤ ((100 : ℚ)) * ((2 : ℚ) - 1) / 2 :=
  (zoom_translate_clamp 25 60 ⟨0, 0, 100, 80⟩ 2 (by norm_num) (by norm_num)
    (by norm_num) (by norm_num) (by norm_num) (by norm_num) (by norm_num)).1

/-! ### C3 — pagination de-duplication -/

/-- The category filtering step selects a sublist. -/
lemma applyCategoryFilter_sublist (filter : CategoryFilter)
    (products : List Product) :
    List.Sublist (applyCategoryFilter filter products) products := by
  cases filter with
  | arr l => exact List.filter_sublist products
  | str s =>
    by_cases h : s = "all" <;> simp [applyCategoryFilter, h]

/-- The category filtering step distributes over concatenation. -/
lemma applyCategoryFilter_append (filter : CategoryFilter)
    (l₁ l₂ : List Product) :
    applyCategoryFilter filter (l₁ ++ l₂)
      = applyCategoryFilter filter l₁ ++ applyCategoryFilter filter l₂ := by
  cases filter with
  | arr l => simp [applyCategoryFilter]
  | str s => by_cases h : s = "all" <;> simp [applyCategoryFilter, h]

/-- The document-to-product mapping preserves identifiers. -/
lemma map_mapDoc_id (page : List Doc) :
    (page.map mapDoc).map Product.id = page.map Doc.id := by
  simp [Function.comp_def, mapDoc]

/-- Invariant step: one append render of the accumulated array against a
container whose card ids are duplicate-free and already cover every
rendered-eligible accumulated product keeps the ids duplicate-free, and
the new container covers the extended accumulated array. -/
lemma render_append_inv (filter : CategoryFilter)
    (products container : List Product) (page : List Doc)
    (hnd : (container.map Product.id).Nodup)
    (hcov : ∀ p ∈ applyCategoryFilter filter products,
      p.id ∈ container.map Product.id)
    (hpg : (page.map Doc.id).Nodup) :
    (((renderProducts container (products ++ page.map mapDoc) filter true).map
        Product.id).Nodup) ∧
    (∀ p ∈ applyCategoryFilter filter (products ++ page.map mapDoc),
      p.id ∈ (renderProducts container (products ++ page.map mapDoc)
        filter true).map Product.id) := by
  have hsplit :
      applyCategoryFilter filter (products ++ page.map mapDoc)
        = applyCategoryFilter filter products
          ++ applyCategoryFilter filter (page.map mapDoc) :=
    applyCategoryFilter_append filter products (page.map mapDoc)
  have hAnil :
      (applyCategoryFilter filter products).filter
        (fun p => !(container.map Product.id).contains p.id) = [] := by
    rw [List.filter_eq_nil_iff]
    intro p hp
    have := hcov p hp
    simp [List.elem_iff, this]
  have hrender :
      renderProducts container (products ++ page.map mapDoc) filter true
        = container ++ (applyCategoryFilter filter (page.map mapDoc)).filter
            (fun p => !(container.map Product.id).contains p.id) := by
    simp only [renderProducts, hsplit, List.filter_append, hAnil,
      List.nil_append, if_pos]
  have hPnd : ((applyCategoryFilter filter (page.map mapDoc)).map
      Product.id).Nodup := by
    have h1 : List.Sublist
        ((applyCategoryFilter filter (page.map mapDoc)).map Product.id)
        ((page.map mapDoc).map Product.id) :=
      (applyCategoryFilter_sublist filter (page.map mapDoc)).map Product.id
    rw [map_mapDoc_id] at h1
    exact hpg.sublist h1
  have hnewnd : (((applyCategoryFilter filter (page.map mapDoc)).filter
      (fun p => !(container.map Product.id).contains p.id)).map
        Product.id).Nodup := by
    have h1 : List.Sublist
        (((applyCategoryFilter filter (page.map mapDoc)).filter
          (fun p => !(container.map Product.id).contains p.id)).map Product.id)
        ((applyCategoryFilter filter (page.map mapDoc)).map Product.id) :=
      (List.filter_sublist _).map Product.id
    exact hPnd.sublist h1
  constructor
  · rw [hrender, List.map_append, List.nodup_append]
    refine ⟨hnd, hnewnd, ?_⟩
    intro x hx hx'
    rcases List.mem_map.mp hx' with ⟨p, hp, hpid⟩
    rcases List.mem_filter.mp hp with ⟨_, hpnot⟩
    rw [hpid] at hpnot
    have hcontain : (container.map Product.id).contains x = true :=
      List.elem_iff.mpr hx
    rw [hcontain] at hpnot
    simp at hpnot
  · intro p hp
    rw [hsplit] at hp
    rw [hrender, List.map_append]
    rcases List.mem_append.mp hp with hpA | hpP
    · exact List.mem_append.mpr (Or.inl (hcov p hpA))
    · by_cases hin : p.id ∈ container.map Product.id
      · exact List.mem_append.mpr (Or.inl hin)
      · refine List.mem_append.mpr (Or.inr ?_)
        refine List.mem_map.mpr ⟨p, ?_, rfl⟩
        refine List.mem_filter.mpr ⟨hpP, ?_⟩
        simp [List.elem_iff, hin]

/-- Folding any number of load-more steps preserves the invariant. -/
lemma fetchRenderMore_foldl_inv (filter : CategoryFilter)
    (pages : List (List Doc)) :
    ∀ acc : List Product × List Product,
      (∀ pg ∈ pages, (pg.map Doc.id).Nodup) →
      (acc.2.map Product.id).Nodup →
      (∀ p ∈ applyCategoryFilter filter acc.1, p.id ∈ acc.2.map Product.id) →
      ((pages.foldl (fetchRenderMore filter) acc).2.map Product.id).Nodup := by
  induction pages with
  | nil =>
    intro acc _ hnd _
    exact hnd
  | cons pg pgs ih =>
    intro acc hpgs hnd hcov
    rw [List.foldl_cons]
    have hstep := render_append_inv filter acc.1 acc.2 pg hnd hcov
      (hpgs pg (List.mem_cons_self pg pgs))
    exact ih (fetchRenderMore filter acc pg)
      (fun q hq => hpgs q (List.mem_cons_of_mem pg hq))
      hstep.1 hstep.2

/-- C3.  Pagination de-duplication: append-mode rendering keeps a card
exactly when it was already in the container or is an incoming
category-eligible product whose id is not among the ids of the cards
already in the container; consequently, after an initial page render and
any sequence of paginated fetches with append renders — each resolved page
being a Firestore snapshot, which never lists the same document twice —
the container never holds two cards with the same product id, even when
later pages repeat documents of earlier pages. -/
theorem pagination_append_never_duplicates_ids :
    (∀ (container batch : List Product) (filter : CategoryFilter)
      (p : Product),
      p ∈ renderProducts container batch filter true ↔
        p ∈ container ∨ (p ∈ applyCategoryFilter filter batch ∧
          p.id ∉ container.map Product.id)) ∧
    (∀ (filter : CategoryFilter) (page₀ : List Doc) (pages : List (List Doc)),
      (page₀.map Doc.id).Nodup →
      (∀ pg ∈ pages, (pg.map Doc.id).Nodup) →
      ((pages.foldl (fetchRenderMore filter)
          (fetchRenderInit filter page₀)).2.map Product.id).Nodup) := by
  constructor
  · intro container batch filter p
    simp [renderProducts, List.mem_filter, List.elem_iff]
  · intro filter page₀ pages hpg₀ hpgs
    apply fetchRenderMore_foldl_inv filter pages (fetchRenderInit filter page₀)
      hpgs
    · have h1 : List.Sublist
          ((applyCategoryFilter filter (page₀.map mapDoc)).map Product.id)
          ((page₀.map mapDoc).map Product.id) :=
        (applyCategoryFilter_sublist filter (page₀.map mapDoc)).map Product.id
      rw [map_mapDoc_id] at h1
      exact hpg₀.sublist h1
    · intro p hp
      exact List.mem_map.mpr ⟨p, hp, rfl⟩

/-- C3 witness: fetching the same one-document page twice (the
same-cursor-state scenario) renders a single card. -/
theorem pagination_append_never_duplicates_ids_witness :
    ((([[vaseDoc]]).foldl (fetchRenderMore (.str "all"))
        (fetchRenderInit (.str "all") [vaseDoc])).2.map Product.id).Nodup :=
  pagination_append_never_duplicates_ids.2 (.str "all") [vaseDoc] [[vaseDoc]]
    (by decide) (by decide)

end ArtesanatoShop
